import Mathlib

/-
Verification of the orgfeed HTTP API layer (apis/post_api.py, apis/employee_api.py)
against its specification.  The repository's API handlers are embedded shallowly:
each Flask-RESTX resource method becomes a Lean function from the caller identity
and the parsed HTTP request to either an HTTP error or the result / the descriptor
of the service call it performs.  The service layer, the models package and the JWT
library are not part of the repository snapshot; where a claim depends on them they
are modelled from the specification, and each such definition says so in its doc
comment.  String utilities are re-implemented by structural recursion over the
character list of the string so that concrete instances reduce in the kernel.
-/

set_option autoImplicit false

deriving instance DecidableEq for Except

namespace OrgFeed

/-- Modelled from the spec: the `PostStatus` enum of models/post_model.py is not under
src/; its members are listed in the spec data model (§3): under_consideration, posted,
returned_for_improvement, rejected, archived. -/
inductive PostStatus where
  | under_consideration
  | posted
  | returned_for_improvement
  | rejected
  | archived
deriving DecidableEq, Repr

/-- The name of an enum member, as Python's `member.name`. -/
def PostStatus.name : PostStatus → String
  | .under_consideration => "under_consideration"
  | .posted => "posted"
  | .returned_for_improvement => "returned_for_improvement"
  | .rejected => "rejected"
  | .archived => "archived"

/-- Python's `PostStatus[s]` (enum lookup by member name); `none` models the
`KeyError` raised when `s` is not the name of a member. -/
def PostStatus.ofName (s : String) : Option PostStatus :=
  if s = "under_consideration" then some .under_consideration
  else if s = "posted" then some .posted
  else if s = "returned_for_improvement" then some .returned_for_improvement
  else if s = "rejected" then some .rejected
  else if s = "archived" then some .archived
  else none

/-- Modelled from the spec: the `EmployeeType` enum of models/employee_model.py is not
under src/; the spec (§3) lists "a fixed set including admin/moderator/regular employee
types"; the enum values are the corresponding strings. -/
inductive EmployeeType where
  | admin
  | moderator
  | employee
deriving DecidableEq, Repr

/-- Python's `EmployeeType(v)` (enum lookup by value); `none` models the `ValueError`
raised when `v` is not a member value. -/
def EmployeeType.ofValue (v : String) : Option EmployeeType :=
  if v = "admin" then some .admin
  else if v = "moderator" then some .moderator
  else if v = "employee" then some .employee
  else none

/-- A parsed HTTP request: the query parameters as an association list
(`flask.request.args`). -/
structure Request where
  args : List (String × String)
deriving DecidableEq, Repr

/-- Python's `request.args.get(name, dflt)`. -/
def Request.argD (r : Request) (name dflt : String) : String :=
  match r.args.find? (fun p => p.1 = name) with
  | some p => p.2
  | none => dflt

/-- An HTTP error response, as produced by `flask.abort(code, message)`. -/
structure HttpError where
  code : Nat
  message : String
deriving DecidableEq, Repr

/-- The single-quote character, used in the `abort` messages built from Python
f-strings of the shape `f"... '{value}'"`. -/
def apos : String := String.singleton (Char.ofNat 39)

/-- Splitting a character list at commas; Python's `str.split(',')`.  The
accumulator holds the current field, reversed. -/
def splitCommaAux : List Char → List Char → List (List Char)
  | [], acc => [acc.reverse]
  | c :: rest, acc =>
    if c = ',' then acc.reverse :: splitCommaAux rest []
    else splitCommaAux rest (c :: acc)

/-- Python's `s.split(',')`: never empty, and `''.split(',') = ['']`. -/
def pySplitComma (s : String) : List String :=
  (splitCommaAux s.data []).map (fun cs => String.mk cs)

/-- Modelled from the spec: `query_param_to_set` (models package, not under src/) turns
a comma-separated query parameter into a set of strings.  An absent parameter behaves
like the empty string, and Python's `''.split(',')` is `['']`, so the result then
holds the single empty string — which is why the handlers in src/ guard against empty
elements (`if status:` in the moderation listing, `all(ids_raw)` in statistics).
The set is modelled as the list of fields; set semantics is membership. -/
def queryParamToSet (r : Request) (name : String) : List String :=
  pySplitComma (r.argD name "")

/-- Python's `str.isdigit`, restricted to ASCII digits: true iff the string is
non-empty and every character is a digit. -/
def pyIsdigit (s : String) : Bool :=
  !s.data.isEmpty && s.data.all Char.isDigit

/-- The numeric value of a digit string (`int(s)` after an `isdigit` check). -/
def digitsToNat (s : String) : Nat :=
  s.data.foldl (fun n c => n * 10 + (c.toNat - 48)) 0

/-- Modelled from the spec: `get_page` (services package, not under src/) reads the
`page` query parameter as a page number; the spec attaches no error behaviour to it,
so it is modelled total, with non-numeric input read as page 0. -/
def getPage (r : Request) : Nat :=
  if pyIsdigit (r.argD "page" "") then digitsToNat (r.argD "page" "") else 0

/-- Modelled from the spec: `get_uuid(request)` (services package, not under src/)
extracts the `id` query parameter; ID strings are opaque here, so the UUID format
check is dropped. -/
def getUuidReq (r : Request) : String :=
  r.argD "id" ""

/-- A call to `post_service.set_post_status(author_id, post_id, status)`: the single
status-transition operation shared by approve / disapprove / return / reject /
archive / unarchive. -/
structure SetStatusCall where
  caller : String
  postId : String
  status : PostStatus
deriving DecidableEq, Repr

/-- Handler POST /post/approve (`ApprovePost.post`): approve a post. -/
def ApprovePost.post (identity : String) (r : Request) : SetStatusCall :=
  ⟨identity, getUuidReq r, .posted⟩

/-- Handler DELETE /post/approve (`ApprovePost.delete`): disapprove a post. -/
def ApprovePost.delete (identity : String) (r : Request) : SetStatusCall :=
  ⟨identity, getUuidReq r, .under_consideration⟩

/-- Handler POST /post/return (source class also named `ApprovePost`): return a post
for further improvements. -/
def ReturnPost.post (identity : String) (r : Request) : SetStatusCall :=
  ⟨identity, getUuidReq r, .returned_for_improvement⟩

/-- Handler POST /post/reject (source class also named `ApprovePost`): reject a post. -/
def RejectPost.post (identity : String) (r : Request) : SetStatusCall :=
  ⟨identity, getUuidReq r, .rejected⟩

/-- Handler POST /post/archive (`ArchivePost.post`): archive a post. -/
def ArchivePost.post (identity : String) (r : Request) : SetStatusCall :=
  ⟨identity, getUuidReq r, .archived⟩

/-- Handler DELETE /post/archive (`ArchivePost.delete`): unarchive a post.  The code
looks the `status` query parameter up in `PostStatus` by name, re-raises `KeyError`
when the result is `archived`, and maps `KeyError` to `abort(400, "Incorrect status
value")`; otherwise it calls `set_post_status` with the parsed status. -/
def ArchivePost.delete (identity : String) (r : Request) : Except HttpError SetStatusCall :=
  match PostStatus.ofName (r.argD "status" "") with
  | none => .error ⟨400, "Incorrect status value"⟩
  | some newStatus =>
    if newStatus = .archived then .error ⟨400, "Incorrect status value"⟩
    else .ok ⟨identity, getUuidReq r, newStatus⟩

/-- Modelled from the spec: `flask_jwt_extended` tokens are "bound to an Employee ID
(the identity claim)" (§3); a token is modelled as its kind plus the bound identity. -/
inductive TokenKind where
  | access
  | refresh
deriving DecidableEq, Repr

/-- A JWT as far as the spec describes one: kind and bound identity. -/
structure JwtToken where
  kind : TokenKind
  identity : String
deriving DecidableEq, Repr

/-- Modelled from the spec: `create_access_token(identity=...)` issues an access token
bound to the given identity. -/
def create_access_token (identity : String) : JwtToken :=
  ⟨.access, identity⟩

/-- Modelled from the spec: `create_refresh_token(identity=...)` issues a refresh token
bound to the given identity. -/
def create_refresh_token (identity : String) : JwtToken :=
  ⟨.refresh, identity⟩

/-- The response body of POST /employee/auth/refresh. -/
structure TokenPairResponse where
  access_token : JwtToken
  refresh_token : JwtToken
  user_id : String
deriving DecidableEq, Repr

/-- Handler POST /employee/auth/refresh (`AuthRefresh.post`).  The framework
(`@jwt_refresh_token_required`) has already validated the presented refresh token;
`identity` is `get_jwt_identity()`, the identity extracted from that token. -/
def AuthRefresh.post (identity : String) : TokenPairResponse × Nat :=
  ({ access_token := create_access_token identity,
     refresh_token := create_refresh_token identity,
     user_id := identity }, 200)

/-- An organizational subunit, as far as the statistics claims need it. -/
structure Subunit where
  id : String
  name : String
deriving DecidableEq, Repr

/-- A stored post, as far as the listing and statistics claims need it: identity,
author, subunit, moderation status and the year-month it is bucketed under. -/
structure PostRec where
  id : String
  author : String
  subunitId : String
  status : PostStatus
  year : Nat
  month : Nat
deriving DecidableEq, Repr

/-- The relational store the services read. -/
structure Store where
  subunits : List Subunit
  posts : List PostRec
  attachments : List String
deriving DecidableEq, Repr

/-- The request body of POST /post (PostCreateModel), as far as the claims need it. -/
structure PostCreatePayload where
  body : String
  attachments : List String
deriving DecidableEq, Repr

/-- Modelled from the spec: `post_service.create_post` (not under src/) — "Creation
(`create`) always starts a post in `under_consideration`; fails with `NotFound` if a
referenced attachment does not exist" (§4.3).  The new post's ID, subunit (derived by
the service from the author's record) and creation date are environment parameters. -/
def create_post (store : Store) (author : String) (payload : PostCreatePayload)
    (newId subunitId : String) (year month : Nat) : Except HttpError PostRec :=
  if payload.attachments.all (fun a => store.attachments.contains a) then
    .ok { id := newId, author := author, subunitId := subunitId,
          status := .under_consideration, year := year, month := month }
  else .error ⟨404, "Attachment not found"⟩

/-- Handler POST /post (`Post.post`): create a post, answering 201 on success. -/
def PostResource.post (identity : String) (payload : PostCreatePayload) (store : Store)
    (newId subunitId : String) (year month : Nat) : Except HttpError (PostRec × Nat) :=
  (create_post store identity payload newId subunitId year month).map (fun p => (p, 201))

/-- A year-month pair ordered like dates: earlier year, or same year and earlier
month. -/
def monthIndex (y m : Nat) : Nat := y * 12 + (m - 1)

/-- All year-month pairs from (sy, sm) to (ey, em) inclusive. -/
def monthsInRange (sy sm ey em : Nat) : List (Nat × Nat) :=
  (List.range (monthIndex ey em + 1 - monthIndex sy sm)).map
    (fun i => ((monthIndex sy sm + i) / 12, (monthIndex sy sm + i) % 12 + 1))

/-- The date-range check of the statistics service: a month outside 1..12, or an end
date preceding the start date. -/
def dateRangeInvalid (sy sm ey em : Nat) : Bool :=
  sm < 1 || 12 < sm || em < 1 || 12 < em || ey < sy || (ey == sy && em < sm)

/-- The subunits a statistics request aggregates over: all of them when no filter is
given, else those whose ID is in the filter. -/
def selectedSubunits (subunits : List Subunit) : Option (List String) → List Subunit
  | none => subunits
  | some ids => subunits.filter (fun s => ids.contains s.id)

/-- The year-month buckets of one subunit: each month of the range paired with the
number of posts of that subunit falling in that month. -/
def statBuckets (posts : List PostRec) (s : Subunit) (months : List (Nat × Nat)) :
    List ((Nat × Nat) × Nat) :=
  months.map (fun ym =>
    (ym, (posts.filter (fun p =>
      p.subunitId == s.id && p.year == ym.1 && p.month == ym.2)).length))

/-- The statistics aggregation: each selected subunit's name mapped to its
year-month buckets. -/
def statResult (store : Store) (sy sm ey em : Nat) (subunitIds : Option (List String)) :
    List (String × List ((Nat × Nat) × Nat)) :=
  (selectedSubunits store.subunits subunitIds).map (fun s =>
    (s.name, statBuckets store.posts s (monthsInRange sy sm ey em)))

/-- Modelled from the spec: `post_service.get_statistics` (not under src/) — "Fails
with `InvalidInput` (422) if the end date precedes the start date or either month is
outside 1–12.  Aggregation buckets posts by `(subunit, year-month)` ... within the
inclusive range; subunit filter restricts to the given set, defaulting to all
subunits" (§4.4). -/
def get_statistics (store : Store) (sy sm ey em : Nat) (subunitIds : Option (List String)) :
    Except HttpError (List (String × List ((Nat × Nat) × Nat))) :=
  if dateRangeInvalid sy sm ey em then .error ⟨422, "Invalid date given"⟩
  else .ok (statResult store sy sm ey em subunitIds)

/-- The `subunit_ids` argument the statistics handler passes to the service:
`[get_uuid(e_id) for e_id in ids_raw] if ids_raw and all(ids_raw) else None`
(post_api.py line 214) — the parsed set when it is non-empty and has no empty
element, else `None`. -/
def statIdsArg (r : Request) : Option (List String) :=
  let idsRaw := queryParamToSet r "ids"
  if !idsRaw.isEmpty && idsRaw.all (fun s => s != "") then some idsRaw else none

/-- The `isdigit` guard of the statistics handler over its four date parameters
(an absent parameter defaults to `""`, which fails `isdigit`). -/
def statDigitsOk (r : Request) : Bool :=
  pyIsdigit (r.argD "start_year" "") && pyIsdigit (r.argD "start_month" "") &&
  pyIsdigit (r.argD "end_year" "") && pyIsdigit (r.argD "end_month" "")

/-- Handler GET /post/statistics (`PostStat.get`): reject non-digit date parameters
with 400, then call `get_statistics` with the parsed dates and the subunit-ID
filter. -/
def PostStat.get (r : Request) (store : Store) :
    Except HttpError (List (String × List ((Nat × Nat) × Nat))) :=
  if !statDigitsOk r then .error ⟨400, "Date values must be integers"⟩
  else get_statistics store
    (digitsToNat (r.argD "start_year" "")) (digitsToNat (r.argD "start_month" ""))
    (digitsToNat (r.argD "end_year" "")) (digitsToNat (r.argD "end_month" ""))
    (statIdsArg r)

/-- Modelled from the spec: the page size of paginated listings; the spec fixes no
value, so an arbitrary positive constant is used. -/
def pageSize : Nat := 20

/-- The slice of a list shown on a (0-based) page. -/
def paginate (page : Nat) (l : List PostRec) : List PostRec :=
  (l.drop (page * pageSize)).take pageSize

/-- The number of pages a list spans. -/
def pagesCount (l : List PostRec) : Nat :=
  (l.length + pageSize - 1) / pageSize

/-- A listing response body: either the `counted_list_of_posts` model — one page of
posts plus a page count — or the plain list of posts the `of_employee` handler
marshals (`full_post` with `as_list=True`). -/
inductive ListingResponse where
  | counted (posts : List PostRec) (pages : Nat)
  | flat (posts : List PostRec)
deriving DecidableEq, Repr

/-- Whether a listing response carries pagination (a page of posts plus a page
count). -/
def isPaginated : ListingResponse → Bool
  | .counted _ _ => true
  | .flat _ => false

/-- Modelled from the spec: `post_service.get_archived_posts(page)` (not under src/)
returns the requested page of the archived posts together with the page count. -/
def get_archived_posts (store : Store) (page : Nat) : ListingResponse :=
  let arch := store.posts.filter (fun p => p.status == .archived)
  .counted (paginate page arch) (pagesCount arch)

/-- Modelled from the spec and the handler: `post_service.get_all_employee_posts`
(not under src/) returns all posts of the given employee ("Get all employee's
posts"); the handler marshals them as a plain list. -/
def get_all_employee_posts (store : Store) (employeeId : String) : List PostRec :=
  store.posts.filter (fun p => p.author == employeeId)

/-- Modelled from the spec: `post_service.get_all_posts(caller, page, statuses,
reverse)` (not under src/) returns the requested page of the posts whose status is in
the filter, optionally reverse-chronological, together with the page count. -/
def get_all_posts (store : Store) (caller : String) (page : Nat)
    (statuses : List PostStatus) (reverse : Bool) : ListingResponse :=
  let sel := store.posts.filter (fun p => statuses.contains p.status)
  let ordered := if reverse then sel.reverse else sel
  .counted (paginate page ordered) (pagesCount ordered)

/-- Handler GET /post/archive (`ArchivePost.get`): the page of archived posts; the
store comes back unchanged (the handler only reads). -/
def ArchivePost.get (r : Request) (store : Store) : ListingResponse × Store :=
  (get_archived_posts store (getPage r), store)

/-- Handler GET /post/of_employee (source class named `Post`): all posts of the
employee given by the `id` parameter, as a flat list; the store comes back unchanged
(the handler only reads). -/
def OfEmployeePost.get (r : Request) (store : Store) : ListingResponse × Store :=
  (.flat (get_all_employee_posts store (getUuidReq r)), store)

/-- The status-set parsing loop of the moderation listing: skip empty fields, collect
parsed statuses, abort on the first field that is not a status name (`abort(422,
f"Incorrect status value '...'")`), returned here as `.error` with that field. -/
def parseStatusSet : List String → Except String (List PostStatus)
  | [] => .ok []
  | s :: rest =>
    if s = "" then parseStatusSet rest
    else
      match PostStatus.ofName s with
      | some st => (parseStatusSet rest).map (fun l => st :: l)
      | none => .error s

/-- The arguments the moderation listing passes to `post_service.get_all_posts`. -/
structure ModerationCall where
  caller : String
  page : Nat
  statuses : List PostStatus
  reverse : Bool
deriving DecidableEq, Repr

/-- The parsing phase of GET /post/moderation: validate the `statuses` parameter and
assemble the service-call arguments (`reverse` defaults to true and is true exactly
when the parameter reads `"true"`). -/
def PostModeration.parsed (identity : String) (r : Request) : Except HttpError ModerationCall :=
  match parseStatusSet (queryParamToSet r "statuses") with
  | .error s => .error ⟨422, "Incorrect status value " ++ apos ++ s ++ apos⟩
  | .ok sts => .ok ⟨identity, getPage r, sts, r.argD "reverse" "true" == "true"⟩

/-- Handler GET /post/moderation (`PostModeration.get`): on a parse error no posts
are fetched; otherwise the parsed statuses are passed as the filter to
`get_all_posts`.  The store comes back unchanged (the handler only reads). -/
def PostModeration.get (identity : String) (r : Request) (store : Store) :
    Except HttpError ListingResponse × Store :=
  (match PostModeration.parsed identity r with
   | .error e => .error e
   | .ok c => .ok (get_all_posts store c.caller c.page c.statuses c.reverse), store)

/-- The type-set parsing loop of GET /employee/fired: collect parsed employee types,
abort on the first field that is not an employee-type value (`abort(400, f"Incorrect
employee type '...'")`), returned here as `.error` with that field.  Unlike the
moderation listing, empty fields are not skipped. -/
def parseTypeSet : List String → Except String (List EmployeeType)
  | [] => .ok []
  | t :: rest =>
    match EmployeeType.ofValue t with
    | some ty => (parseTypeSet rest).map (fun l => ty :: l)
    | none => .error t

/-- The arguments GET /employee/fired passes to
`employee_service.get_fired_moderators`. -/
structure FiredCall where
  subunitId : String
  types : List EmployeeType
deriving DecidableEq, Repr

/-- Handler GET /employee/fired (source class named `AuthRefresh`): validate the
`types` parameter, then call the directory with the subunit ID and the parsed type
set. -/
def EmployeeFired.get (r : Request) : Except HttpError FiredCall :=
  match parseTypeSet (queryParamToSet r "types") with
  | .error t => .error ⟨400, "Incorrect employee type " ++ apos ++ t ++ apos⟩
  | .ok tys => .ok ⟨getUuidReq r, tys⟩

/-- `str.isdigit` is false exactly on the empty string and on strings with a
non-digit character. -/
theorem pyIsdigit_eq_false_iff (s : String) :
    pyIsdigit s = false ↔ s = "" ∨ ∃ c ∈ s.data, c.isDigit = false := by
  cases s with
  | mk data =>
    simp [pyIsdigit, String.ext_iff, List.isEmpty_iff]
    tauto

/-- Splitting at commas yields at least one field (`''.split(',') = ['']`). -/
theorem pySplitComma_ne_nil (s : String) : pySplitComma s ≠ [] := by
  have h : ∀ (l acc : List Char), splitCommaAux l acc ≠ [] := by
    intro l
    induction l with
    | nil => intro acc; simp [splitCommaAux]
    | cons c rest ih =>
      intro acc
      by_cases hc : c = ','
      · simp [splitCommaAux, hc]
      · simp [splitCommaAux, hc]
        exact ih _
  simp [pySplitComma]
  exact h _ _

/-- If some non-empty field is not a status name, the status parsing loop aborts
with one such field. -/
theorem parseStatusSet_error_of (l : List String)
    (h : ∃ s ∈ l, s ≠ "" ∧ PostStatus.ofName s = none) :
    ∃ s ∈ l, s ≠ "" ∧ PostStatus.ofName s = none ∧ parseStatusSet l = .error s := by
  induction l with
  | nil => simp at h
  | cons a rest ih =>
    by_cases ha : a = ""
    · subst ha
      obtain ⟨s, hs, hne, hnone⟩ := h
      rcases List.mem_cons.mp hs with rfl | hs'
      · exact absurd rfl hne
      · obtain ⟨t, ht, htne, htnone, heq⟩ := ih ⟨s, hs', hne, hnone⟩
        exact ⟨t, List.mem_cons_of_mem _ ht, htne, htnone,
          by simpa [parseStatusSet] using heq⟩
    · cases hv : PostStatus.ofName a with
      | none => exact ⟨a, by simp, ha, hv, by simp [parseStatusSet, ha, hv]⟩
      | some st =>
        obtain ⟨s, hs, hne, hnone⟩ := h
        rcases List.mem_cons.mp hs with rfl | hs'
        · rw [hv] at hnone; exact absurd hnone (by simp)
        · obtain ⟨t, ht, htne, htnone, heq⟩ := ih ⟨s, hs', hne, hnone⟩
          exact ⟨t, List.mem_cons_of_mem _ ht, htne, htnone,
            by simp [parseStatusSet, ha, hv, heq, Except.map]⟩

/-- If every non-empty field is a status name, the status parsing loop succeeds and
returns exactly the statuses named by the fields. -/
theorem parseStatusSet_ok_of (l : List String)
    (h : ∀ s ∈ l, s ≠ "" → (PostStatus.ofName s).isSome) :
    ∃ sts, parseStatusSet l = .ok sts ∧
      ∀ st, st ∈ sts ↔ ∃ s ∈ l, PostStatus.ofName s = some st := by
  induction l with
  | nil => exact ⟨[], rfl, by simp⟩
  | cons a rest ih =>
    obtain ⟨sts, heq, hiff⟩ := ih (fun s hs => h s (List.mem_cons_of_mem _ hs))
    by_cases ha : a = ""
    · subst ha
      refine ⟨sts, by simpa [parseStatusSet] using heq, ?_⟩
      intro st
      rw [hiff st]
      constructor
      · rintro ⟨s, hs, hv⟩
        exact ⟨s, List.mem_cons_of_mem _ hs, hv⟩
      · rintro ⟨s, hs, hv⟩
        rcases List.mem_cons.mp hs with rfl | hs'
        · rw [show PostStatus.ofName "" = none from by decide] at hv; cases hv
        · exact ⟨s, hs', hv⟩
    · have hsome := h a (by simp) ha
      cases hv : PostStatus.ofName a with
      | none => rw [hv] at hsome; simp at hsome
      | some st0 =>
        refine ⟨st0 :: sts, by simp [parseStatusSet, ha, hv, heq, Except.map], ?_⟩
        intro st
        simp only [List.mem_cons]
        constructor
        · rintro (rfl | hmem)
          · exact ⟨a, by simp, hv⟩
          · obtain ⟨s, hs, hsv⟩ := (hiff st).mp hmem
            exact ⟨s, by simp [hs], hsv⟩
        · rintro ⟨s, hs, hsv⟩
          rcases hs with rfl | hs'
          · rw [hv] at hsv
            left
            exact (Option.some.inj hsv).symm
          · right
            exact (hiff st).mpr ⟨s, hs', hsv⟩

/-- If some field is not an employee-type value, the type parsing loop aborts with
one such field. -/
theorem parseTypeSet_error_of (l : List String)
    (h : ∃ t ∈ l, EmployeeType.ofValue t = none) :
    ∃ t ∈ l, EmployeeType.ofValue t = none ∧ parseTypeSet l = .error t := by
  induction l with
  | nil => simp at h
  | cons a rest ih =>
    cases hv : EmployeeType.ofValue a with
    | none => exact ⟨a, by simp, hv, by simp [parseTypeSet, hv]⟩
    | some ty =>
      obtain ⟨t, ht, htn⟩ := h
      rcases List.mem_cons.mp ht with rfl | ht'
      · rw [hv] at htn; exact absurd htn (by simp)
      · obtain ⟨t2, ht2, ht2n, heq⟩ := ih ⟨t, ht', htn⟩
        exact ⟨t2, List.mem_cons_of_mem _ ht2, ht2n, by simp [parseTypeSet, hv, heq, Except.map]⟩

/-- If every field is an employee-type value, the type parsing loop succeeds and
returns exactly the types named by the fields. -/
theorem parseTypeSet_ok_of (l : List String)
    (h : ∀ t ∈ l, (EmployeeType.ofValue t).isSome) :
    ∃ tys, parseTypeSet l = .ok tys ∧
      ∀ ty, ty ∈ tys ↔ ∃ t ∈ l, EmployeeType.ofValue t = some ty := by
  induction l with
  | nil => exact ⟨[], rfl, by simp⟩
  | cons a rest ih =>
    have ha := h a (by simp)
    cases hv : EmployeeType.ofValue a with
    | none => rw [hv] at ha; simp at ha
    | some ty0 =>
      obtain ⟨tys, heq, hiff⟩ := ih (fun t ht => h t (List.mem_cons_of_mem _ ht))
      refine ⟨ty0 :: tys, by simp [parseTypeSet, hv, heq, Except.map], ?_⟩
      intro ty
      simp only [List.mem_cons]
      constructor
      · rintro (rfl | hmem)
        · exact ⟨a, by simp, hv⟩
        · obtain ⟨t, ht, htv⟩ := (hiff ty).mp hmem
          exact ⟨t, by simp [ht], htv⟩
      · rintro ⟨t, ht, htv⟩
        rcases ht with rfl | ht'
        · rw [hv] at htv
          left
          exact (Option.some.inj htv).symm
        · right
          exact (hiff ty).mpr ⟨t, ht', htv⟩

/-- C1: for every unarchive request, an absent `status` parameter, a value that is not
a post-status name, or the value `archived` yields error 400 "Incorrect status value"
and no status-change call is made (the handler returns without invoking
`set_post_status`); and any valid non-archived status S yields exactly the call
`set_post_status(identity, post_id, S)`.  An absent parameter defaults to `""`, which
is not a member name, so the first conjunct covers it. -/
theorem unarchive_validates_status (identity : String) (r : Request) :
    ((PostStatus.ofName (r.argD "status" "") = none ∨
      PostStatus.ofName (r.argD "status" "") = some .archived) →
      ArchivePost.delete identity r = .error ⟨400, "Incorrect status value"⟩) ∧
    (∀ s : PostStatus, s ≠ .archived → PostStatus.ofName (r.argD "status" "") = some s →
      ArchivePost.delete identity r = .ok ⟨identity, getUuidReq r, s⟩) := by
  constructor
  · intro h
    rcases h with h | h <;> simp [ArchivePost.delete, h]
  · intro s hs h
    simp [ArchivePost.delete, h, hs]

/-- Witness for C1 at a concrete input: status=posted succeeds with target `posted`. -/
theorem unarchive_validates_status_witness :
    ArchivePost.delete "u1" ⟨[("status", "posted"), ("id", "p1")]⟩ =
      .ok ⟨"u1", "p1", PostStatus.posted⟩ :=
  (unarchive_validates_status "u1" ⟨[("status", "posted"), ("id", "p1")]⟩).2
    PostStatus.posted (by decide) (by decide)

/-- C2: the five moderation actions each call the one status-transition operation
`set_post_status` with the caller's identity, the post ID from the request, and the
action's fixed target status: approve → posted, disapprove → under_consideration,
return → returned_for_improvement, reject → rejected, archive → archived. -/
theorem moderation_actions_fixed_targets (identity : String) (r : Request) :
    ApprovePost.post identity r = ⟨identity, getUuidReq r, .posted⟩ ∧
    ApprovePost.delete identity r = ⟨identity, getUuidReq r, .under_consideration⟩ ∧
    ReturnPost.post identity r = ⟨identity, getUuidReq r, .returned_for_improvement⟩ ∧
    RejectPost.post identity r = ⟨identity, getUuidReq r, .rejected⟩ ∧
    ArchivePost.post identity r = ⟨identity, getUuidReq r, .archived⟩ :=
  ⟨rfl, rfl, rfl, rfl, rfl⟩

/-- C7: the refresh handler returns a token pair bound to the identity extracted from
the presented refresh token — both new tokens are created with that identity, and the
returned `user_id` equals it. -/
theorem refresh_preserves_identity (identity : String) :
    (AuthRefresh.post identity).1.access_token.identity = identity ∧
    (AuthRefresh.post identity).1.refresh_token.identity = identity ∧
    (AuthRefresh.post identity).1.user_id = identity ∧
    (AuthRefresh.post identity).1.access_token.kind = .access ∧
    (AuthRefresh.post identity).1.refresh_token.kind = .refresh :=
  ⟨rfl, rfl, rfl, rfl, rfl⟩

/-- C3: every successfully created post starts in `under_consideration` (and in no
other status), with the caller as author and response code 201; and creation fails
with 404 when a referenced attachment does not exist. -/
theorem create_post_initial_status (store : Store) (identity : String)
    (payload : PostCreatePayload) (newId subunitId : String) (year month : Nat) :
    (∀ p c, PostResource.post identity payload store newId subunitId year month = .ok (p, c) →
      p.status = .under_consideration ∧ p.author = identity ∧ c = 201) ∧
    ((∃ a ∈ payload.attachments, store.attachments.contains a = false) →
      PostResource.post identity payload store newId subunitId year month =
        .error ⟨404, "Attachment not found"⟩) := by
  constructor
  · intro p c hpc
    unfold PostResource.post create_post at hpc
    by_cases hall : payload.attachments.all (fun a => store.attachments.contains a) = true
    · rw [if_pos hall] at hpc
      simp [Except.map] at hpc
      obtain ⟨hp, hc⟩ := hpc
      subst hp
      exact ⟨rfl, rfl, hc.symm⟩
    · rw [if_neg hall] at hpc
      simp [Except.map] at hpc
  · rintro ⟨a, ha, hcon⟩
    have hall : payload.attachments.all (fun a => store.attachments.contains a) = false := by
      rw [List.all_eq_false]
      exact ⟨a, ha, by simpa using hcon⟩
    unfold PostResource.post create_post
    rw [if_neg (by rw [hall]; simp)]
    rfl

/-- Witness for C3 at a concrete input: a payload referencing a missing attachment is
rejected with 404. -/
theorem create_post_initial_status_witness :
    PostResource.post "u1" ⟨"hello", ["missing"]⟩ ⟨[], [], ["other"]⟩ "p9" "s1" 2020 5 =
      .error ⟨404, "Attachment not found"⟩ :=
  (create_post_initial_status ⟨[], [], ["other"]⟩ "u1" ⟨"hello", ["missing"]⟩
    "p9" "s1" 2020 5).2 ⟨"missing", by decide, by decide⟩

/-- C10: if any of the four date parameters of a statistics request is missing
(defaulting to `""`) or contains a non-digit character — a minus sign included, so
negative values are rejected — the handler answers 400 "Date values must be integers"
and the aggregation service is never reached (no statistics value is produced). -/
theorem stat_rejects_nondigit_dates (r : Request) (store : Store)
    (h : ∃ p ∈ ["start_year", "start_month", "end_year", "end_month"],
          r.argD p "" = "" ∨ ∃ c ∈ (r.argD p "").data, c.isDigit = false) :
    PostStat.get r store = .error ⟨400, "Date values must be integers"⟩ := by
  obtain ⟨p, hp, hcase⟩ := h
  have hfalse : pyIsdigit (r.argD p "") = false := (pyIsdigit_eq_false_iff _).mpr hcase
  have hdig : statDigitsOk r = false := by
    simp only [List.mem_cons, List.not_mem_nil, or_false] at hp
    rcases hp with rfl | rfl | rfl | rfl <;>
      simp [statDigitsOk, hfalse]
  simp [PostStat.get, hdig]

/-- Witness for C10 at a concrete input: a negative start year is rejected. -/
theorem stat_rejects_nondigit_dates_witness :
    PostStat.get
        ⟨[("start_year", "-1"), ("start_month", "1"), ("end_year", "2020"), ("end_month", "1")]⟩
        ⟨[], [], []⟩ =
      .error ⟨400, "Date values must be integers"⟩ :=
  stat_rejects_nondigit_dates
    ⟨[("start_year", "-1"), ("start_month", "1"), ("end_year", "2020"), ("end_month", "1")]⟩
    ⟨[], [], []⟩ (by decide)

/-- C4: for every statistics request whose date parameters pass the integer check,
the service rejects an end date preceding the start date, or a month outside 1..12,
with 422 "Invalid date given"; otherwise it answers with one entry per selected
subunit holding, for each year-month of the inclusive range, the count of that
subunit's posts bucketed in that month. -/
theorem stat_validates_range_and_counts (r : Request) (store : Store)
    (sy sm ey em : Nat)
    (hdig : statDigitsOk r = true)
    (hsy : sy = digitsToNat (r.argD "start_year" ""))
    (hsm : sm = digitsToNat (r.argD "start_month" ""))
    (hey : ey = digitsToNat (r.argD "end_year" ""))
    (hem : em = digitsToNat (r.argD "end_month" "")) :
    (dateRangeInvalid sy sm ey em = true →
      PostStat.get r store = .error ⟨422, "Invalid date given"⟩) ∧
    (dateRangeInvalid sy sm ey em = false →
      PostStat.get r store = .ok (statResult store sy sm ey em (statIdsArg r)) ∧
      (statResult store sy sm ey em (statIdsArg r)).length =
        (selectedSubunits store.subunits (statIdsArg r)).length ∧
      ∀ s ∈ selectedSubunits store.subunits (statIdsArg r),
        ∃ buckets, (s.name, buckets) ∈ statResult store sy sm ey em (statIdsArg r) ∧
          ∀ y m, (y, m) ∈ monthsInRange sy sm ey em →
            ((y, m), store.posts.countP
                (fun p => p.subunitId == s.id && p.year == y && p.month == m)) ∈ buckets) := by
  subst hsy hsm hey hem
  constructor
  · intro hbad
    simp [PostStat.get, hdig, get_statistics, hbad]
  · intro hok
    refine ⟨by simp [PostStat.get, hdig, get_statistics, hok], by simp [statResult], ?_⟩
    intro s hs
    refine ⟨statBuckets store.posts s (monthsInRange _ _ _ _),
      List.mem_map_of_mem _ hs, ?_⟩
    intro y m hym
    rw [List.countP_eq_length_filter]
    simp only [statBuckets]
    exact List.mem_map_of_mem _ hym

/-- Witness for C4 at a concrete input: end 2020-10 precedes start 2020-11, so the
request is rejected with 422. -/
theorem stat_validates_range_and_counts_witness :
    PostStat.get
        ⟨[("start_year", "2020"), ("start_month", "11"), ("end_year", "2020"), ("end_month", "10")]⟩
        ⟨[], [], []⟩ =
      .error ⟨422, "Invalid date given"⟩ :=
  (stat_validates_range_and_counts
    ⟨[("start_year", "2020"), ("start_month", "11"), ("end_year", "2020"), ("end_month", "10")]⟩
    ⟨[], [], []⟩ 2020 11 2020 10
    (by decide) (by decide) (by decide) (by decide) (by decide)).1 (by decide)

/-- C6: the moderation listing aborts with 422 "Incorrect status value '...'" when
the `statuses` parameter holds a non-empty field that is not a status name — the post
query is then never reached, the handler's result being that error — and otherwise
passes exactly the set of parsed statuses as the filter to the post query. -/
theorem moderation_status_validation (identity : String) (r : Request) (store : Store) :
    ((∃ s ∈ queryParamToSet r "statuses", s ≠ "" ∧ PostStatus.ofName s = none) →
      ∃ s ∈ queryParamToSet r "statuses", s ≠ "" ∧ PostStatus.ofName s = none ∧
        PostModeration.parsed identity r =
          .error ⟨422, "Incorrect status value " ++ apos ++ s ++ apos⟩ ∧
        (PostModeration.get identity r store).1 =
          .error ⟨422, "Incorrect status value " ++ apos ++ s ++ apos⟩) ∧
    ((∀ s ∈ queryParamToSet r "statuses", s ≠ "" → (PostStatus.ofName s).isSome) →
      ∃ sts, PostModeration.parsed identity r =
          .ok ⟨identity, getPage r, sts, r.argD "reverse" "true" == "true"⟩ ∧
        (∀ st, st ∈ sts ↔ ∃ s ∈ queryParamToSet r "statuses", PostStatus.ofName s = some st) ∧
        (PostModeration.get identity r store).1 =
          .ok (get_all_posts store identity (getPage r) sts
            (r.argD "reverse" "true" == "true"))) := by
  constructor
  · intro h
    obtain ⟨s, hs, hne, hnone, heq⟩ := parseStatusSet_error_of _ h
    exact ⟨s, hs, hne, hnone, by simp [PostModeration.parsed, heq],
      by simp [PostModeration.get, PostModeration.parsed, heq]⟩
  · intro h
    obtain ⟨sts, heq, hiff⟩ := parseStatusSet_ok_of _ h
    exact ⟨sts, by simp [PostModeration.parsed, heq], hiff,
      by simp [PostModeration.get, PostModeration.parsed, heq]⟩

/-- Witness for C6 at a concrete input: an unknown status name is rejected with 422
before any posts are fetched. -/
theorem moderation_status_validation_witness :
    ∃ s ∈ queryParamToSet ⟨[("statuses", "bogus")]⟩ "statuses",
      s ≠ "" ∧ PostStatus.ofName s = none ∧
      PostModeration.parsed "u1" ⟨[("statuses", "bogus")]⟩ =
        .error ⟨422, "Incorrect status value " ++ apos ++ s ++ apos⟩ ∧
      (PostModeration.get "u1" ⟨[("statuses", "bogus")]⟩ ⟨[], [], []⟩).1 =
        .error ⟨422, "Incorrect status value " ++ apos ++ s ++ apos⟩ :=
  (moderation_status_validation "u1" ⟨[("statuses", "bogus")]⟩ ⟨[], [], []⟩).1 (by decide)

/-- C9: the fired-employees listing aborts with 400 "Incorrect employee type '...'"
when the `types` parameter holds a field that is not an employee-type value — the
directory query is then never executed, the handler's result being that error — and
otherwise passes on exactly the set of parsed employee types. -/
theorem fired_types_validation (r : Request) :
    ((∃ t ∈ queryParamToSet r "types", EmployeeType.ofValue t = none) →
      ∃ t ∈ queryParamToSet r "types", EmployeeType.ofValue t = none ∧
        EmployeeFired.get r =
          .error ⟨400, "Incorrect employee type " ++ apos ++ t ++ apos⟩) ∧
    ((∀ t ∈ queryParamToSet r "types", (EmployeeType.ofValue t).isSome) →
      ∃ tys, EmployeeFired.get r = .ok ⟨getUuidReq r, tys⟩ ∧
        ∀ ty, ty ∈ tys ↔ ∃ t ∈ queryParamToSet r "types",
          EmployeeType.ofValue t = some ty) := by
  constructor
  · intro h
    obtain ⟨t, ht, htn, heq⟩ := parseTypeSet_error_of _ h
    exact ⟨t, ht, htn, by simp [EmployeeFired.get, heq]⟩
  · intro h
    obtain ⟨tys, heq, hiff⟩ := parseTypeSet_ok_of _ h
    exact ⟨tys, by simp [EmployeeFired.get, heq], hiff⟩

/-- Witness for C9 at a concrete input: an unknown employee type is rejected with
400. -/
theorem fired_types_validation_witness :
    ∃ t ∈ queryParamToSet ⟨[("id", "s1"), ("types", "boss")]⟩ "types",
      EmployeeType.ofValue t = none ∧
      EmployeeFired.get ⟨[("id", "s1"), ("types", "boss")]⟩ =
        .error ⟨400, "Incorrect employee type " ++ apos ++ t ++ apos⟩ :=
  (fired_types_validation ⟨[("id", "s1"), ("types", "boss")]⟩).1 (by decide)

/-- C5 (amended): all three listing handlers are read-only — the store comes back
unchanged.  `archived` and `moderation` accept a page number and answer with the
posts of that page plus a page count; `of_employee` instead takes an employee ID and
returns all of that employee's posts as a flat, unpaginated list. -/
theorem listings_read_only_and_shapes (identity : String) (r : Request) (store : Store) :
    ((ArchivePost.get r store).2 = store ∧
      (ArchivePost.get r store).1 = get_archived_posts store (getPage r) ∧
      isPaginated (ArchivePost.get r store).1 = true) ∧
    ((OfEmployeePost.get r store).2 = store ∧
      (OfEmployeePost.get r store).1 = .flat (get_all_employee_posts store (getUuidReq r)) ∧
      isPaginated (OfEmployeePost.get r store).1 = false) ∧
    ((PostModeration.get identity r store).2 = store ∧
      ∀ c, PostModeration.parsed identity r = .ok c →
        (PostModeration.get identity r store).1 =
          .ok (get_all_posts store c.caller c.page c.statuses c.reverse) ∧
        isPaginated (get_all_posts store c.caller c.page c.statuses c.reverse) = true) := by
  refine ⟨⟨rfl, rfl, by simp [ArchivePost.get, get_archived_posts, isPaginated]⟩,
    ⟨rfl, rfl, by simp [OfEmployeePost.get, isPaginated]⟩, rfl, ?_⟩
  intro c hc
  constructor
  · simp [PostModeration.get, hc]
  · simp [get_all_posts, isPaginated]

/-- Witness for the amended C5 at a concrete input: a valid moderation request is
answered with the requested page and a page count. -/
theorem listings_read_only_and_shapes_witness :
    (PostModeration.get "u1" ⟨[("statuses", "posted"), ("page", "0")]⟩
        ⟨[], [⟨"p1", "e1", "a", .posted, 2020, 1⟩], []⟩).1 =
      .ok (get_all_posts ⟨[], [⟨"p1", "e1", "a", .posted, 2020, 1⟩], []⟩
        "u1" 0 [.posted] true) ∧
    isPaginated (get_all_posts ⟨[], [⟨"p1", "e1", "a", .posted, 2020, 1⟩], []⟩
        "u1" 0 [.posted] true) = true :=
  (listings_read_only_and_shapes "u1" ⟨[("statuses", "posted"), ("page", "0")]⟩
      ⟨[], [⟨"p1", "e1", "a", .posted, 2020, 1⟩], []⟩).2.2.2
    ⟨"u1", 0, [.posted], true⟩ (by decide)

/-- C5 counterexample: at a concrete request and store, the `of_employee` listing is
not paginated — its response is a flat list with no page count, and changing the
`page` parameter does not change the response — refuting "every one of them accepts a
page number and returns only the posts of that page together with a page count". -/
theorem of_employee_not_paginated :
    isPaginated (OfEmployeePost.get ⟨[("id", "e1"), ("page", "3")]⟩
        ⟨[], [⟨"p1", "e1", "a", .posted, 2020, 1⟩], []⟩).1 = false ∧
    OfEmployeePost.get ⟨[("id", "e1"), ("page", "3")]⟩
        ⟨[], [⟨"p1", "e1", "a", .posted, 2020, 1⟩], []⟩ =
      OfEmployeePost.get ⟨[("id", "e1"), ("page", "4")]⟩
        ⟨[], [⟨"p1", "e1", "a", .posted, 2020, 1⟩], []⟩ :=
  ⟨by decide, by decide⟩

/-- C8 (amended): the statistics subunit filter is the supplied ID set exactly when
the `ids` parameter is supplied with every comma-separated element non-empty; when
the parameter is omitted (the parsed set is then the singleton empty string) — or any
element is empty, e.g. from a trailing comma — the filter passed to the service is
None and the aggregation then covers all subunits. -/
theorem stat_ids_filter_behavior (r : Request) :
    (Request.argD r "ids" "" = "" → statIdsArg r = none) ∧
    ((∃ s ∈ queryParamToSet r "ids", s = "") → statIdsArg r = none) ∧
    ((∀ s ∈ queryParamToSet r "ids", s ≠ "") →
      statIdsArg r = some (queryParamToSet r "ids")) ∧
    (∀ subunits : List Subunit, selectedSubunits subunits none = subunits) ∧
    (∀ subunits : List Subunit, ∀ ids : List String,
      selectedSubunits subunits (some ids) =
        subunits.filter (fun s => ids.contains s.id)) := by
  refine ⟨?_, ?_, ?_, fun _ => rfl, fun _ _ => rfl⟩
  · intro h
    have hq : queryParamToSet r "ids" = [""] := by
      simp [queryParamToSet, h, pySplitComma, splitCommaAux]
    simp [statIdsArg, hq]
  · rintro ⟨s, hs, rfl⟩
    have hall : (queryParamToSet r "ids").all (fun s => s != "") = false := by
      rw [List.all_eq_false]
      exact ⟨"", hs, by simp⟩
    simp [statIdsArg, hall]
  · intro h
    have h1 : (queryParamToSet r "ids").all (fun s => s != "") = true := by
      rw [List.all_eq_true]
      intro s hs
      simpa using h s hs
    have h2 : (queryParamToSet r "ids").isEmpty = false := by
      simp [List.isEmpty_iff, queryParamToSet]
      exact pySplitComma_ne_nil _
    simp [statIdsArg, h1, h2]

/-- Witness for the amended C8 at a concrete input: two non-empty IDs are passed
through as the filter. -/
theorem stat_ids_filter_behavior_witness :
    statIdsArg ⟨[("ids", "a,b")]⟩ = some (queryParamToSet ⟨[("ids", "a,b")]⟩ "ids") :=
  (stat_ids_filter_behavior ⟨[("ids", "a,b")]⟩).2.2.1 (by decide)

/-- C8 counterexample: for a request supplying `ids=a,` (a non-empty set of subunit
IDs, with a trailing comma) the handler passes None — not the supplied set — as the
filter, and the aggregation covers subunit "b" ("Beta"), which is not among the
supplied IDs; this refutes "the subunit filter restricts the aggregation to exactly
the supplied set of subunit IDs" as stated. -/
theorem stat_ids_filter_counterexample :
    Request.argD ⟨[("start_year", "2020"), ("start_month", "11"), ("end_year", "2020"),
        ("end_month", "11"), ("ids", "a,")]⟩ "ids" "" = "a," ∧
    statIdsArg ⟨[("start_year", "2020"), ("start_month", "11"), ("end_year", "2020"),
        ("end_month", "11"), ("ids", "a,")]⟩ = none ∧
    PostStat.get ⟨[("start_year", "2020"), ("start_month", "11"), ("end_year", "2020"),
          ("end_month", "11"), ("ids", "a,")]⟩
        ⟨[⟨"a", "Alpha"⟩, ⟨"b", "Beta"⟩], [], []⟩ =
      .ok [("Alpha", [((2020, 11), 0)]), ("Beta", [((2020, 11), 0)])] :=
  ⟨by decide, by decide, by decide⟩

end OrgFeed
